import Mathlib

/-!
Verification of `gen_points.go` (repository narqo/vtb-dms).

The repository holds two near-duplicate variants of one program; the named
file `src/gen_points.go` is the evolved variant whose data model matches the
spec (it has the `phone` field), so it is the one embedded here.  The
embedding is shallow: the line-mode parser becomes a pure step function over
an explicit parser state, the geocode client becomes a pure function
parameterised by the network transport and the JSON decoder (both effects of
the Go runtime, not of this repository), and the bounded-concurrency
dispatch loop becomes a labelled transition system.  Go `float64` values are
modelled as exact rationals: every claim below is about which tokens are
stored where, never about rounding.
-/

deriving instance DecidableEq for Except

/-- The `Clinic` record of `gen_points.go` (lines 33-39).  A fresh Go value
is zero-valued: empty strings and a nil `Points` slice, modelled by `[]`. -/
structure Clinic where
  name : String
  rawAddress : String
  phone : String
  address : String
  points : List ℚ
deriving Repr, DecidableEq

/-- The zero value of `Clinic`, as produced by `Clinic{}` in Go. -/
def Clinic.empty : Clinic := ⟨"", "", "", "", []⟩

/-! Parser modes, the `iota` constants of `gen_points.go` lines 97-103. -/

def MODE_NONE : Nat := 0

def MODE_SECTION : Nat := 1

def MODE_NAME : Nat := 2

def MODE_ADDRESS : Nat := 3

def MODE_PHONE : Nat := 4

/-- Model of Go `strings.TrimSpace`: drop leading and trailing whitespace
characters. -/
def trimSpace (s : String) : String :=
  ⟨((s.data.dropWhile Char.isWhitespace).reverse.dropWhile Char.isWhitespace).reverse⟩

/-- `isSection` (lines 141-152): a line is a section header when it has at
least three characters and starts with a digit followed by a dot, or two
digits followed by a dot.  Go indexes bytes; for the ASCII inputs of all
claims, bytes and characters coincide, and `unicode.IsNumber` on a single
ASCII byte agrees with `Char.isDigit`. -/
def isSection (line : String) : Bool :=
  match line.data with
  | a :: b :: c :: _ =>
    if a.isDigit then (b = '.') || (b.isDigit && c = '.') else false
  | _ => false

/-- The mutable state of the Go parser loop: `p.nextMode` plus the
in-progress record `cc` (lines 105-110). -/
structure PState where
  nextMode : Nat
  cc : Clinic
deriving Repr, DecidableEq

/-- One iteration of the `r.Scan()` loop of `parser.Parse` (lines 112-138):
trim the line; a blank line appends the current record and resets; a section
header only resets; otherwise the line fills the field selected by
`nextMode` (no case fires for `MODE_NONE`).  Returns the next state and the
records appended during this iteration. -/
def parseStep (s : PState) (rawLine : String) : PState × List Clinic :=
  let line := trimSpace rawLine
  if line = "" then
    (⟨MODE_NAME, Clinic.empty⟩, [s.cc])
  else if isSection line then
    (⟨MODE_NAME, s.cc⟩, [])
  else if s.nextMode = MODE_NAME then
    (⟨MODE_ADDRESS, { s.cc with name := line }⟩, [])
  else if s.nextMode = MODE_ADDRESS then
    (⟨MODE_PHONE, { s.cc with rawAddress := line }⟩, [])
  else if s.nextMode = MODE_PHONE then
    (⟨MODE_PHONE, { s.cc with phone := line }⟩, [])
  else
    (s, [])

/-- Run the parser loop over a list of input lines, returning the records
appended (in order) and the final loop state. -/
def parseRun : PState → List String → List Clinic × PState
  | s, [] => ([], s)
  | s, l :: ls =>
    let (s', out) := parseStep s l
    let (rest, sf) := parseRun s' ls
    (out ++ rest, sf)

/-- The initial parser state: a zero-valued `parser` has `nextMode = 0`,
that is `MODE_NONE`, and a zero-valued current record. -/
def pInit : PState := ⟨MODE_NONE, Clinic.empty⟩

/-- `parser.Parse` (lines 109-139) as a function from the scanned lines to
the sequence of records appended to the global `clinics` slice.
`bufio.Scanner` yields the text between newlines, without a trailing
phantom line after a final newline. -/
def parse (lines : List String) : List Clinic :=
  (parseRun pInit lines).1

/-! ## Geocode client (`doGeocodeClinic`, lines 154-209) -/

/-- One geo object of the service's response: `gen_points.go` lines 221-232.
The single-field wrapper structs are flattened: `text` stands for
`metaDataProperty.GeocoderMetaData.text`, `pos` for `Point.pos`. -/
structure GeoObject where
  text : String
  pos : String
deriving Repr, DecidableEq

/-- The decoded service response (lines 211-219): the list of feature
members, each carrying one geo object. -/
structure GeocodeResponse where
  featureMember : List GeoObject
deriving Repr, DecidableEq

/-- The error cases of `doGeocodeClinic`, one constructor per `return`
carrying an error (lines 156, 172, 178, 184, 188, 194, 202). -/
inductive GeoError where
  | noRawAddress
  | transport (msg : String)
  | badStatus (status : Nat) (body : String)
  | decodeError (msg : String)
  | noGeoObject
  | badPoints (pos : String)
  | parseFloatError (tok : String)
deriving Repr, DecidableEq

/-- Model of Go `strings.SplitN(s, " ", 2)`: split at the first space only;
a string without a space yields a one-element list. -/
def splitN2Aux : List Char → List Char → List String
  | acc, [] => [⟨acc.reverse⟩]
  | acc, c :: cs => if c = ' ' then [⟨acc.reverse⟩, ⟨cs⟩] else splitN2Aux (c :: acc) cs

/-- `strings.SplitN(s, " ", 2)`. -/
def splitN2 (s : String) : List String :=
  splitN2Aux [] s.data

/-- The numeric value of a list of decimal digit characters. -/
def digitsVal (cs : List Char) : Nat :=
  cs.foldl (fun n c => 10 * n + (c.toNat - 48)) 0

/-- Model of Go `strconv.ParseFloat(s, 32)` on plain decimal input: optional
sign, integer digits, optional fractional digits; anything else is an
error.  The value is kept as an exact rational (the Go program stores a
float; no claim here depends on rounding, only on which token lands where). -/
def parseFloat (s : String) : Except String ℚ :=
  let body : List Char → Except String ℚ := fun cs =>
    let ip := cs.takeWhile Char.isDigit
    match cs.dropWhile Char.isDigit with
    | [] => if ip.isEmpty then .error s else .ok (mkRat (digitsVal ip) 1)
    | '.' :: fp =>
      if fp.all Char.isDigit && !(ip.isEmpty && fp.isEmpty) then
        .ok (mkRat (digitsVal ip * 10 ^ fp.length + digitsVal fp) (10 ^ fp.length))
      else .error s
    | _ => .error s
  match s.data with
  | '-' :: cs => (body cs).map (fun q => -q)
  | '+' :: cs => body cs
  | cs => body cs

/-- `doGeocodeClinic` (lines 154-209) as a pure function.  The two effects
of the Go runtime are parameters: `net` models `http.Get` on the geocoder
URL built from the raw address (transport error, or status code and body),
and `dec` models `json.Decoder.Decode` of the body into `geocodeResponse`.
The result pairs the function's `error` return with the record after the
call: the Go code mutates `cc` in place only at lines 205-206, after every
error check, so each early `return` leaves the record untouched. -/
def doGeocodeClinic (net : String → Except String (Nat × String))
    (dec : String → Except String GeocodeResponse) (cc : Clinic) :
    Except GeoError Unit × Clinic :=
  if cc.rawAddress = "" then (.error .noRawAddress, cc)
  else
    match net cc.rawAddress with
    | .error e => (.error (.transport e), cc)
    | .ok (status, rbody) =>
      if status ≠ 200 then (.error (.badStatus status rbody), cc)
      else
        match dec rbody with
        | .error e => (.error (.decodeError e), cc)
        | .ok geoResp =>
          match geoResp.featureMember with
          | [] => (.error .noGeoObject, cc)
          | geoObj :: _ =>
            match splitN2 geoObj.pos with
            | [t0, t1] =>
              match parseFloat (trimSpace t0) with
              | .error _ => (.error (.parseFloatError t0), cc)
              | .ok lat =>
                match parseFloat (trimSpace t1) with
                | .error _ => (.error (.parseFloatError t1), cc)
                | .ok long =>
                  (.ok (), { cc with points := [long, lat], address := geoObj.text })
            | _ => (.error (.badPoints geoObj.pos), cc)

/-- The functional content of main's dispatch loop (lines 55-72): every
record gets exactly one geocode attempt in its own slot of the shared
collection, so the final collection is the slot-wise result of the attempt,
in the original order. -/
def dispatchAll (net : String → Except String (Nat × String))
    (dec : String → Except String GeocodeResponse) (cs : List Clinic) : List Clinic :=
  cs.map (fun c => (doGeocodeClinic net dec c).2)

/-- A stub transport that always answers 200 with a fixed body tag. -/
def stubNet : String → Except String (Nat × String) := fun _ => .ok (200, "stub")

/-- A stub decoder producing one successful result whose position string is
`"37.6 55.75"`. -/
def stubDec : String → Except String GeocodeResponse :=
  fun _ => .ok ⟨[⟨"Some City, Main St 1", "37.6 55.75"⟩]⟩

/-! ## Instrumented parser: every Go byte-indexing made explicit -/

/-- `isSection` with its byte accesses `line[0]`, `line[1]`, `line[2]`
made explicit and fallible, exactly as guarded by the Go length test
(line 142): an out-of-range access would be the only way this function
could panic. -/
def isSectionE (line : String) : Except String Bool :=
  if line.data.length < 3 then .ok false
  else
    match line.data.get? 0, line.data.get? 1, line.data.get? 2 with
    | some a, some b, some c =>
      .ok (if a.isDigit then (b = '.') || (b.isDigit && c = '.') else false)
    | _, _, _ => .error "index out of range"

/-- `parseStep` with the fallible `isSectionE` in place of `isSection`. -/
def parseStepE (s : PState) (rawLine : String) : Except String (PState × List Clinic) :=
  let line := trimSpace rawLine
  if line = "" then
    .ok (⟨MODE_NAME, Clinic.empty⟩, [s.cc])
  else
    match isSectionE line with
    | .error e => .error e
    | .ok true => .ok (⟨MODE_NAME, s.cc⟩, [])
    | .ok false =>
      if s.nextMode = MODE_NAME then
        .ok (⟨MODE_ADDRESS, { s.cc with name := line }⟩, [])
      else if s.nextMode = MODE_ADDRESS then
        .ok (⟨MODE_PHONE, { s.cc with rawAddress := line }⟩, [])
      else if s.nextMode = MODE_PHONE then
        .ok (⟨MODE_PHONE, { s.cc with phone := line }⟩, [])
      else
        .ok (s, [])

/-- The whole parser loop in the instrumented semantics. -/
def parseRunE : PState → List String → Except String (List Clinic × PState)
  | s, [] => .ok ([], s)
  | s, l :: ls =>
    match parseStepE s l with
    | .error e => .error e
    | .ok (s', out) =>
      match parseRunE s' ls with
      | .error e => .error e
      | .ok (rest, sf) => .ok (out ++ rest, sf)

/-! ## Bounded concurrent dispatcher as a transition system -/

/-- A snapshot of main's dispatch loop (lines 55-72): `started` is how far
the `for _, cc := range clinics` loop has got (goroutines launched so far),
`active` the indices of goroutines currently holding a `limiter` slot
(acquired before the goroutine starts, released after its geocode attempt),
and `done` the multiset of indices whose geocode attempt has completed. -/
structure DispatchState where
  started : Nat
  active : Multiset Nat
  done : Multiset Nat

/-- Before the loop: nothing launched, nothing in flight, nothing done. -/
def dispatchInit : DispatchState := ⟨0, 0, 0⟩

/-- The two events of the dispatch loop, for `cap` semaphore slots
(`limiter = make(chan struct{}, 10)` gives `cap = 10`) and `n` records:
`spawn` is one iteration of the main loop — it blocks until a slot is free
(`limiter <- struct{}{}`), so it fires only when fewer than `cap` goroutines
are in flight — and `finish` is one goroutine completing its single
`doGeocodeClinic` call and releasing its slot (`<-limiter; wg.Done()`). -/
inductive DispatchStep (cap n : Nat) : DispatchState → DispatchState → Prop
  | spawn (s : DispatchState) (h1 : s.started < n) (h2 : Multiset.card s.active < cap) :
      DispatchStep cap n s ⟨s.started + 1, s.started ::ₘ s.active, s.done⟩
  | finish (s : DispatchState) (i : Nat) (h : i ∈ s.active) :
      DispatchStep cap n s ⟨s.started, s.active.erase i, i ::ₘ s.done⟩

/-- The states the dispatch loop can reach from its start, under any
interleaving. -/
def DispatchReach (cap n : Nat) (s : DispatchState) : Prop :=
  Relation.ReflTransGen (DispatchStep cap n) dispatchInit s

/-- Inductive invariant of the dispatch loop: never more than `cap`
goroutines hold a slot, the loop index stays within the collection, and
each record has been attempted or is in flight exactly once if the loop
has passed it, not at all otherwise. -/
def DispatchInv (cap n : Nat) (s : DispatchState) : Prop :=
  Multiset.card s.active ≤ cap ∧ s.started ≤ n ∧
    ∀ i, Multiset.count i s.active + Multiset.count i s.done =
      if i < s.started then 1 else 0

theorem dispatchInv_init (cap n : Nat) : DispatchInv cap n dispatchInit := by
  refine ⟨by simp [dispatchInit], by simp [dispatchInit], fun i => ?_⟩
  simp [dispatchInit]

theorem dispatchInv_step {cap n : Nat} {s s' : DispatchState}
    (hinv : DispatchInv cap n s) (hstep : DispatchStep cap n s s') :
    DispatchInv cap n s' := by
  obtain ⟨hcard, hst, hcount⟩ := hinv
  cases hstep with
  | spawn h1 h2 =>
    refine ⟨?_, ?_, fun i => ?_⟩
    · dsimp only
      rw [Multiset.card_cons]
      omega
    · exact h1
    dsimp only
    have hi := hcount i
    simp only [Multiset.count_cons]
    by_cases he : i = s.started
    · subst he
      have h0 : Multiset.count s.started s.active + Multiset.count s.started s.done = 0 := by
        simpa using hi
      rw [if_pos rfl, if_pos (Nat.lt_succ_self _)]
      omega
    · rw [if_neg he]
      rcases lt_or_ge i s.started with hlt | hge
      · rw [if_pos hlt] at hi
        rw [if_pos (by omega)]
        omega
      · rw [if_neg (by omega)] at hi
        rw [if_neg (by omega)]
        omega
  | finish i0 h =>
    have hmem : 1 ≤ Multiset.count i0 s.active := Multiset.one_le_count_iff_mem.mpr h
    refine ⟨?_, hst, fun i => ?_⟩
    · dsimp only
      rw [Multiset.card_erase_of_mem h]
      exact le_trans (Nat.pred_le _) hcard
    dsimp only
    have hi := hcount i
    by_cases he : i = i0
    · subst he
      rw [Multiset.count_erase_self, Multiset.count_cons_self]
      omega
    · rw [Multiset.count_erase_of_ne he, Multiset.count_cons_of_ne he]
      omega

theorem dispatchReach_inv {cap n : Nat} {s : DispatchState}
    (h : DispatchReach cap n s) : DispatchInv cap n s := by
  induction h with
  | refl => exact dispatchInv_init cap n
  | tail _ hstep ih => exact dispatchInv_step ih hstep

/-! ## Parser lemmas -/

theorem parseStep_blank {l : String} (s : PState) (h : trimSpace l = "") :
    parseStep s l = (⟨MODE_NAME, Clinic.empty⟩, [s.cc]) := by
  simp [parseStep, h]

theorem parseStep_out_nonblank {l : String} (s : PState) (h : trimSpace l ≠ "") :
    (parseStep s l).2 = [] := by
  unfold parseStep
  simp only [if_neg h]
  split
  · rfl
  split
  · rfl
  split
  · rfl
  split
  · rfl
  · rfl

theorem parseRun_append (s : PState) (xs ys : List String) :
    parseRun s (xs ++ ys) =
      ((parseRun s xs).1 ++ (parseRun (parseRun s xs).2 ys).1,
        (parseRun (parseRun s xs).2 ys).2) := by
  induction xs generalizing s with
  | nil => simp [parseRun]
  | cons x xs ih =>
    simp only [List.cons_append, parseRun, List.append_eq]
    rw [ih (parseStep s x).1]
    simp [List.append_assoc]

theorem parseRun_out_nonblank (s : PState) (ls : List String)
    (h : ∀ l ∈ ls, trimSpace l ≠ "") : (parseRun s ls).1 = [] := by
  induction ls generalizing s with
  | nil => rfl
  | cons x xs ih =>
    simp only [parseRun]
    rw [parseStep_out_nonblank s (h x (by simp))]
    simpa using ih (parseStep s x).1 (fun l hl => h l (by simp [hl]))

theorem parseRun_length (s : PState) (ls : List String) :
    (parseRun s ls).1.length = ls.countP (fun l => trimSpace l == "") := by
  induction ls generalizing s with
  | nil => rfl
  | cons x xs ih =>
    simp only [parseRun, List.countP_cons]
    by_cases h : trimSpace x = ""
    · rw [parseStep_blank s h]
      simp [ih, h]
    · rw [parseStep_out_nonblank s h]
      simp only [List.nil_append]
      rw [ih]
      simp [h]

theorem parseRun_phone (cc : Clinic) (ls : List String)
    (h : ∀ l ∈ ls, trimSpace l ≠ "" ∧ isSection (trimSpace l) = false) :
    parseRun ⟨MODE_PHONE, cc⟩ ls =
      ([], ⟨MODE_PHONE, { cc with phone := ls.foldl (fun _ l => trimSpace l) cc.phone }⟩) := by
  induction ls generalizing cc with
  | nil => rfl
  | cons x xs ih =>
    obtain ⟨hb, hs⟩ := h x (by simp)
    have hstep : parseStep ⟨MODE_PHONE, cc⟩ x =
        (⟨MODE_PHONE, { cc with phone := trimSpace x }⟩, []) := by
      simp [parseStep, hb, hs, MODE_NAME, MODE_ADDRESS, MODE_PHONE]
    simp only [parseRun, hstep]
    rw [ih { cc with phone := trimSpace x } (fun l hl => h l (by simp [hl]))]
    simp [List.foldl_cons]

theorem foldl_trim_getLast (ls : List String) (d : String) (h : ls ≠ []) :
    ls.foldl (fun _ l => trimSpace l) d = trimSpace (ls.getLast h) := by
  induction ls generalizing d with
  | nil => exact absurd rfl h
  | cons x xs ih =>
    cases xs with
    | nil => rfl
    | cons y ys =>
      rw [List.foldl_cons, ih (trimSpace x) (by simp)]
      conv_rhs => rw [List.getLast_cons (by simp)]

/-! ## Instrumented parser never fails -/

theorem isSectionE_ok (s : String) : isSectionE s = .ok (isSection s) := by
  rcases hd : s.data with _ | ⟨a, _ | ⟨b, _ | ⟨c, tl⟩⟩⟩ <;>
    simp [isSectionE, isSection, hd]

theorem parseStepE_ok (s : PState) (l : String) :
    parseStepE s l = .ok (parseStep s l) := by
  unfold parseStepE parseStep
  by_cases hb : trimSpace l = ""
  · simp [hb]
  · simp only [if_neg hb, isSectionE_ok]
    by_cases hs : isSection (trimSpace l)
    · simp [hs]
    · simp only [hs, Bool.false_eq_true, if_neg, if_false]
      split_ifs <;> simp

theorem parseRunE_ok (s : PState) (ls : List String) :
    parseRunE s ls = .ok (parseRun s ls) := by
  induction ls generalizing s with
  | nil => rfl
  | cons x xs ih =>
    simp only [parseRunE, parseStepE_ok, parseRun]
    rw [ih (parseStep s x).1]

/-! ## Geocode client lemmas -/

/-! ## The claims -/

/-- Claim C1: for every input collection of n records, the dispatch loop of
main (semaphore `limiter` of capacity 10 acquired before each geocode call
and released after it) never has more than 10 calls in flight in any
reachable state, and in any terminal state (loop finished, every slot
released — the situation after `wg.Wait()` returns) every record has had
exactly one geocode attempt. -/
theorem claim_C1_dispatcher_bounded (n : Nat) (s : DispatchState)
    (h : DispatchReach 10 n s) :
    Multiset.card s.active ≤ 10 ∧
      (s.started = n → s.active = 0 →
        ∀ i, Multiset.count i s.done = if i < n then 1 else 0) := by
  obtain ⟨hcard, hst, hcount⟩ := dispatchReach_inv h
  refine ⟨hcard, fun hsn hact i => ?_⟩
  have hi := hcount i
  rw [hact] at hi
  simpa [hsn] using hi

theorem claim_C1_dispatcher_bounded_witness :
    Multiset.card dispatchInit.active ≤ 10 ∧
      (dispatchInit.started = 0 → dispatchInit.active = 0 →
        ∀ i, Multiset.count i dispatchInit.done = if i < 0 then 1 else 0) :=
  claim_C1_dispatcher_bounded 0 dispatchInit Relation.ReflTransGen.refl

/-- Claim C2: on every successful geocode call the two tokens of the
response's coordinate string are stored in reverse of their input order:
the first token is parsed into `lat` (line 197), the second into `long`
(line 199), and the stored pair is `[long, lat]` (line 205), so position
string "37.6 55.75" yields stored points [55.75, 37.6]. -/
theorem claim_C2_inversion
    (net : String → Except String (Nat × String))
    (dec : String → Except String GeocodeResponse)
    (cc : Clinic) (rbody : String) (resp : GeocodeResponse)
    (gobj : GeoObject) (rest : List GeoObject) (t0 t1 : String) (a b : ℚ)
    (h0 : cc.rawAddress ≠ "")
    (h1 : net cc.rawAddress = .ok (200, rbody))
    (h2 : dec rbody = .ok resp)
    (h3 : resp.featureMember = gobj :: rest)
    (h4 : splitN2 gobj.pos = [t0, t1])
    (h5 : parseFloat (trimSpace t0) = .ok a)
    (h6 : parseFloat (trimSpace t1) = .ok b) :
    doGeocodeClinic net dec cc =
      (.ok (), { cc with points := [b, a], address := gobj.text }) := by
  simp [doGeocodeClinic, h0, h1, h2, h3, h4, h5, h6]

theorem claim_C2_inversion_witness :
    doGeocodeClinic stubNet stubDec ⟨"ClinicA", "Main St 1", "555-1234", "", []⟩ =
      (.ok (), ⟨"ClinicA", "Main St 1", "555-1234", "Some City, Main St 1",
        [mkRat 223 4, mkRat 188 5]⟩) :=
  claim_C2_inversion stubNet stubDec
    ⟨"ClinicA", "Main St 1", "555-1234", "", []⟩ "stub"
    ⟨[⟨"Some City, Main St 1", "37.6 55.75"⟩]⟩
    ⟨"Some City, Main St 1", "37.6 55.75"⟩ [] "37.6" "55.75" (mkRat 188 5) (mkRat 223 4)
    (by decide) rfl rfl rfl (by decide) (by decide) (by decide)

/-- Claim C3: a record with empty raw address makes the geocode client
return its "no raw address" error at once (line 156); the outcome does not
depend on the transport or the decoder at all (no network call is made);
and a full dispatcher pass leaves such a record exactly as it was, in any
position of the collection. -/
theorem claim_C3_empty_address
    (net net' : String → Except String (Nat × String))
    (dec dec' : String → Except String GeocodeResponse)
    (cc : Clinic) (h : cc.rawAddress = "") :
    doGeocodeClinic net dec cc = (.error .noRawAddress, cc) ∧
      doGeocodeClinic net dec cc = doGeocodeClinic net' dec' cc ∧
      ∀ pre post : List Clinic,
        dispatchAll net dec (pre ++ cc :: post) =
          dispatchAll net dec pre ++ cc :: dispatchAll net dec post := by
  have h1 : doGeocodeClinic net dec cc = (.error .noRawAddress, cc) := by
    simp [doGeocodeClinic, h]
  have h2 : doGeocodeClinic net' dec' cc = (.error .noRawAddress, cc) := by
    simp [doGeocodeClinic, h]
  refine ⟨h1, by rw [h1, h2], fun pre post => ?_⟩
  simp [dispatchAll, h1]

theorem claim_C3_empty_address_witness :
    doGeocodeClinic stubNet stubDec Clinic.empty = (.error .noRawAddress, Clinic.empty) ∧
      doGeocodeClinic stubNet stubDec Clinic.empty =
        doGeocodeClinic (fun _ => .error "down") (fun _ => .error "bad json") Clinic.empty ∧
      ∀ pre post : List Clinic,
        dispatchAll stubNet stubDec (pre ++ Clinic.empty :: post) =
          dispatchAll stubNet stubDec pre ++ Clinic.empty :: dispatchAll stubNet stubDec post :=
  claim_C3_empty_address stubNet (fun _ => .error "down") stubDec
    (fun _ => .error "bad json") Clinic.empty (by decide)

/-- Claim C4: whenever `doGeocodeClinic` returns an error — empty address,
transport failure, non-200 status, undecodable body, zero results, wrong
token count, or unparsable numeric token — the record it was given comes
back with every field exactly as it was: the Go function only assigns to
the record at lines 205-206, after the last error check. -/
theorem claim_C4_error_frame
    (net : String → Except String (Nat × String))
    (dec : String → Except String GeocodeResponse) (cc out : Clinic) (e : GeoError)
    (h : doGeocodeClinic net dec cc = (.error e, out)) : out = cc := by
  unfold doGeocodeClinic at h
  repeat' split at h
  all_goals
    first
    | (simp only [Prod.mk.injEq] at h; exact h.2.symm)
    | simp at h

theorem claim_C4_error_frame_witness :
    (⟨"A", "Addr", "5", "", []⟩ : Clinic) = ⟨"A", "Addr", "5", "", []⟩ :=
  claim_C4_error_frame stubNet (fun _ => .ok ⟨[]⟩)
    ⟨"A", "Addr", "5", "", []⟩ ⟨"A", "Addr", "5", "", []⟩ .noGeoObject (by decide)

/-- Claim C5: a decoded response whose feature-member collection is empty
makes the geocode client return the "no geoobject in response" error
(line 188) — no crash, record unchanged. -/
theorem claim_C5_no_result
    (net : String → Except String (Nat × String))
    (dec : String → Except String GeocodeResponse)
    (cc : Clinic) (rbody : String) (resp : GeocodeResponse)
    (h0 : cc.rawAddress ≠ "")
    (h1 : net cc.rawAddress = .ok (200, rbody))
    (h2 : dec rbody = .ok resp)
    (h3 : resp.featureMember = []) :
    doGeocodeClinic net dec cc = (.error .noGeoObject, cc) := by
  simp [doGeocodeClinic, h0, h1, h2, h3]

theorem claim_C5_no_result_witness :
    doGeocodeClinic stubNet (fun _ => .ok ⟨[]⟩) ⟨"A", "Addr", "", "", []⟩ =
      (.error .noGeoObject, ⟨"A", "Addr", "", "", []⟩) :=
  claim_C5_no_result stubNet (fun _ => .ok ⟨[]⟩) ⟨"A", "Addr", "", "", []⟩
    "stub" ⟨[]⟩ (by decide) rfl rfl rfl

/-- The input lines of the spec's end-to-end scenario, as scanned from the
text "1.\nClinicA\nMain St 1\n555-1234\n\n". -/
def c6input : List String := ["1.", "ClinicA", "Main St 1", "555-1234", ""]

/-- Claim C6 counterexample: on the spec's end-to-end input the pipeline
does NOT produce a record named "ClinicA". -/
theorem claim_C6_counterexample :
    (dispatchAll stubNet stubDec (parse c6input)).map Clinic.name ≠ ["ClinicA"] := by
  decide

/-- Claim C6 amended: on input "1.\nClinicA\nMain St 1\n555-1234\n\n" the
pipeline yields exactly one record with every field empty: the header line
"1." is shorter than 3 characters, so `isSection` rejects it, the parser
stays in `MODE_NONE` (which stores nothing) until the blank line, and the
blank line flushes the still-empty record; its empty raw address then makes
the geocode attempt fail, leaving address and points empty. -/
theorem claim_C6_amended :
    parse c6input = [Clinic.empty] ∧
      dispatchAll stubNet stubDec (parse c6input) = [Clinic.empty] ∧
      isSection (trimSpace "1.") = false := by
  decide

/-- Claim C7: records are appended only on blank lines, so an input whose
final block is not followed by a blank line drops that trailing block:
appending any suffix free of blank lines to an input leaves the parsed
records unchanged (reaching EOF does not flush the current record). -/
theorem claim_C7_eof_no_flush (ls suffix : List String)
    (h : ∀ l ∈ suffix, trimSpace l ≠ "") :
    parse (ls ++ suffix) = parse ls := by
  unfold parse
  rw [parseRun_append, parseRun_out_nonblank _ suffix h]
  simp

theorem claim_C7_eof_no_flush_witness :
    parse (["10.", "A", "B", "C", ""] ++ ["11.", "X", "Y", "Z"]) =
      parse ["10.", "A", "B", "C", ""] :=
  claim_C7_eof_no_flush ["10.", "A", "B", "C", ""] ["11.", "X", "Y", "Z"] (by decide)

/-- Claim C8 counterexample: in the block "10.", "A", "B", "C", "D", "" the
third non-header line is "C", but the parsed record's phone is "D" — later
lines are not ignored, they overwrite the phone field. -/
theorem claim_C8_counterexample :
    (parse ["10.", "A", "B", "C", "D", ""]).map Clinic.phone = ["D"] ∧
      ("D" : String) ≠ "C" := by
  decide

/-- Claim C8 amended: once the parser has reached the PHONE role, every
further non-header, non-blank line keeps the role at PHONE and OVERWRITES
the phone field (case `_MODE_PHONE` of line 136 assigns and does not
advance), so the record's phone ends up equal to the LAST such line of the
block (trimmed), and those lines append no record. -/
theorem claim_C8_amended (cc : Clinic) (ls : List String) (hne : ls ≠ [])
    (h : ∀ l ∈ ls, trimSpace l ≠ "" ∧ isSection (trimSpace l) = false) :
    parseRun ⟨MODE_PHONE, cc⟩ ls =
      ([], ⟨MODE_PHONE, { cc with phone := trimSpace (ls.getLast hne) }⟩) := by
  rw [parseRun_phone cc ls h, foldl_trim_getLast ls cc.phone hne]

theorem claim_C8_amended_witness :
    parseRun ⟨MODE_PHONE, Clinic.empty⟩ ["C", "D"] =
      ([], ⟨MODE_PHONE, ⟨"", "", "D", "", []⟩⟩) :=
  claim_C8_amended Clinic.empty ["C", "D"] (by decide) (by decide)

/-- Claim C9: parsing never fails or panics on any input: the instrumented
parser, in which every Go byte-indexing operation is explicit and fallible,
returns ok on every list of input lines, producing exactly the records of
the total function `parse`. -/
theorem claim_C9_parse_total (ls : List String) :
    parseRunE pInit ls = .ok (parse ls, (parseRun pInit ls).2) := by
  rw [parseRunE_ok]
  rfl

/-- Claim C10: the parser appends exactly one record per line that is blank
after trimming and none otherwise: the record count equals the blank-line
count; each blank line appends precisely the current in-progress record;
and a leading blank line (or each of two consecutive blank lines) appends a
record with all fields empty. -/
theorem claim_C10_blank_line_count :
    (∀ ls : List String, (parse ls).length = ls.countP (fun l => trimSpace l == "")) ∧
      (∀ (s : PState) (ls : List String), parseRun s ("" :: ls) =
        (s.cc :: (parseRun ⟨MODE_NAME, Clinic.empty⟩ ls).1,
          (parseRun ⟨MODE_NAME, Clinic.empty⟩ ls).2)) ∧
      parse ["", ""] = [Clinic.empty, Clinic.empty] := by
  refine ⟨fun ls => parseRun_length pInit ls, fun s ls => ?_, by decide⟩
  have hb : parseStep s "" = (⟨MODE_NAME, Clinic.empty⟩, [s.cc]) :=
    parseStep_blank s (by decide)
  simp [parseRun, hb]
